import Mathlib

/-!
Shallow embedding of the order RPC demo (unary / server-streaming /
client-streaming / bidirectional streaming) and its Node client driver.
The server-side order service and store are modelled from the spec
(the Python server is not part of the shipped sources); the client
driver definitions are transcribed from `gRPC/client-node/index.mjs`.
-/

namespace OrderRpc

/-- Order status enum of the wire schema:
CREATED, PROCESSING, SHIPPED, DELIVERED. -/
inductive Status
  | CREATED
  | PROCESSING
  | SHIPPED
  | DELIVERED
deriving DecidableEq, Repr

/-- Modelled from the spec: the fixed status progression
CREATED → PROCESSING → SHIPPED → DELIVERED; DELIVERED is terminal. -/
def nextStatus : Status → Option Status
  | .CREATED => some .PROCESSING
  | .PROCESSING => some .SHIPPED
  | .SHIPPED => some .DELIVERED
  | .DELIVERED => none

/-- Iterate `nextStatus` for at most `fuel` more steps, collecting the
statuses visited (the start status included). -/
def statusesFromAux : Nat → Status → List Status
  | 0, st => [st]
  | fuel + 1, st =>
    match nextStatus st with
    | none => [st]
    | some t => st :: statusesFromAux fuel t

/-- Modelled from the spec: the status sequence a subscription positioned at
`st` observes, ending with the terminal `DELIVERED` event.  Three steps of
`nextStatus` reach `DELIVERED` from any status. -/
def statusesFrom (st : Status) : List Status :=
  statusesFromAux 3 st

/-- Error taxonomy shared by all four RPC shapes. -/
inductive GrpcError
  | InvalidArgument
  | NotFound
  | Cancelled
  | Internal
deriving DecidableEq, Repr

/-- Order record of the data model. -/
structure Order where
  id : String
  customer_id : String
  item_ids : List String
  status : Status
  created_at : Nat
deriving DecidableEq, Repr

/-- Status event record of the data model. -/
structure StatusEvent where
  order_id : String
  status : Status
  emitted_at : Nat
deriving DecidableEq, Repr

/-- Modelled from the spec: the in-memory Order Store, an id-to-Order
association list together with the atomic unique-id counter. -/
structure Store where
  orders : List (String × Order)
  nextId : Nat
deriving DecidableEq, Repr

def Store.empty : Store := ⟨[], 0⟩

/-- Modelled from the spec: unique order-id generation from the store's
counter, rendered as a string id. -/
def mkId (n : Nat) : String := "order-" ++ Nat.repr n

def Store.get (s : Store) (oid : String) : Option Order :=
  (s.orders.find? (fun p => p.1 == oid)).map (fun p => p.2)

/-- Modelled from the spec: `create` constructs an order with status
`CREATED` and a fresh unique id, registers it, and returns it. -/
def Store.create (s : Store) (customer_id : String) (item_ids : List String)
    (now : Nat) : Order × Store :=
  let o : Order := ⟨mkId s.nextId, customer_id, item_ids, .CREATED, now⟩
  (o, ⟨(o.id, o) :: s.orders, s.nextId + 1⟩)

/-! ### Order Service operations -/

/-- Modelled from the spec: the unary `Create` call.  Fails with
`InvalidArgument` on empty `item_ids`, leaving the store unchanged;
otherwise registers a fresh order and answers with its `order_id`.
One request, one response: the result is a single `Except` value paired
with the store after the call. -/
def createRpc (s : Store) (customer_id : String) (item_ids : List String)
    (now : Nat) : Except GrpcError String × Store :=
  if item_ids.isEmpty then (Except.error GrpcError.InvalidArgument, s)
  else
    let r := s.create customer_id item_ids now
    (Except.ok r.1.id, r.2)

/-- Modelled from the spec: the store's `statusEvents` read view — an
independent status sequence positioned at the order's current status,
or `NotFound` for an unknown id. -/
def Store.statusEvents (s : Store) (oid : String) :
    Except GrpcError (List Status) :=
  match s.get oid with
  | none => Except.error GrpcError.NotFound
  | some o => Except.ok (statusesFrom o.status)

/-- Modelled from the spec: the server-streaming `StreamStatus` call.
Unknown ids end immediately with `NotFound` and zero events; otherwise the
emitted events carry the order id and consecutive emission times starting
at `t0`, and the stream ends cleanly after the terminal event. -/
def streamStatus (s : Store) (oid : String) (t0 : Nat) :
    Except GrpcError (List StatusEvent) :=
  (s.statusEvents oid).map fun sts =>
    sts.enum.map fun p => ⟨oid, p.2, t0 + p.1⟩

/-! ### Client-streaming upload machine -/

/-- Note record of the data model. -/
structure Note where
  text : String
  ts : Nat
deriving DecidableEq, Repr

/-- Notes summary record of the data model. -/
structure NotesSummary where
  count : Nat
  total_chars : Nat
  first_ts : Nat
  last_ts : Nat
deriving DecidableEq, Repr

/-- Running accumulator the server keeps while notes stream in. -/
structure UploadAcc where
  count : Nat
  total_chars : Nat
  first_ts : Option Nat
  last_ts : Option Nat
deriving DecidableEq, Repr

def UploadAcc.start : UploadAcc := ⟨0, 0, none, none⟩

/-- Modelled from the spec: fold one incoming note into the running
summary accumulator. -/
def UploadAcc.addNote (a : UploadAcc) (n : Note) : UploadAcc :=
  ⟨a.count + 1, a.total_chars + n.text.length,
    some (a.first_ts.getD n.ts), some n.ts⟩

def UploadAcc.finalize (a : UploadAcc) : NotesSummary :=
  ⟨a.count, a.total_chars, a.first_ts.getD 0, a.last_ts.getD 0⟩

/-- Inbound events of the client-streaming call: a note, or the explicit
end-of-input signal. -/
inductive UpMsg
  | note (n : Note)
  | eoi
deriving DecidableEq, Repr

/-- Modelled from the spec: one step of the `UploadNotes` server machine.
A note is folded into the accumulator with no response; the summary
response is produced only on the end-of-input signal. -/
def uploadStep (a : UploadAcc) : UpMsg → UploadAcc × List NotesSummary
  | .note n => (a.addNote n, [])
  | .eoi => (a, [a.finalize])

/-- Run the upload machine over an inbound message sequence, collecting
every response it sends. -/
def runUpload : UploadAcc → List UpMsg → UploadAcc × List NotesSummary
  | a, [] => (a, [])
  | a, m :: ms =>
    let st := uploadStep a m
    let r := runUpload st.1 ms
    (r.1, st.2 ++ r.2)

/-! ### Server-streaming subscription machine with cancellation -/

/-- An active `StreamStatus` subscription: the events not yet emitted and
whether the caller has cancelled. -/
structure Sub where
  pending : List Status
  cancelled : Bool
deriving DecidableEq, Repr

/-- Inbound signals of a subscription: a scheduling tick (emit the next
event, if any) or caller-initiated cancellation. -/
inductive SubIn
  | tick
  | cancel
deriving DecidableEq, Repr

/-- Modelled from the spec: one scheduling step of a subscription.
Cancellation releases the subscription at once (pending events dropped);
a tick on a live subscription emits the next pending event. -/
def subStep (s : Sub) : SubIn → Sub × List Status
  | .cancel => (⟨[], true⟩, [])
  | .tick =>
    if s.cancelled then (s, [])
    else
      match s.pending with
      | [] => (s, [])
      | e :: rest => (⟨rest, false⟩, [e])

/-- Run a subscription over a signal schedule, collecting the emitted
events. -/
def runSub : Sub → List SubIn → Sub × List Status
  | s, [] => (s, [])
  | s, i :: is =>
    let st := subStep s i
    let r := runSub st.1 is
    (r.1, st.2 ++ r.2)

/-! ### Bidirectional chat connection -/

/-- Chat message record of the data model; the source field `from` is a
Lean keyword and is embedded as `sender`. -/
structure ChatMessage where
  sender : String
  text : String
  ts : Nat
deriving DecidableEq, Repr

/-- Connection state of a `Chat` call: which send directions have closed
and whether a terminal error was reported. -/
structure ChatConn where
  clientClosed : Bool
  serverClosed : Bool
  failed : Option GrpcError
deriving DecidableEq, Repr

def ChatConn.start : ChatConn := ⟨false, false, none⟩

/-- Observable events on a chat connection. -/
inductive ChatEv
  | clientMsg (m : ChatMessage)
  | serverMsg (m : ChatMessage)
  | clientClose
  | serverClose
  | fail (e : GrpcError)
deriving DecidableEq, Repr

/-- Modelled from the spec: messages flow while their direction is open;
a half-close marks one direction closed and leaves the other untouched;
an error from either side is recorded for both ends. -/
def chatStep (c : ChatConn) : ChatEv → ChatConn
  | .clientMsg _ => c
  | .serverMsg _ => c
  | .clientClose => { c with clientClosed := true }
  | .serverClose => { c with serverClosed := true }
  | .fail e => { c with failed := some e }

def runChat (evs : List ChatEv) : ChatConn :=
  evs.foldl chatStep ChatConn.start

/-- Modelled from the spec: the stream is closed exactly when both
directions have closed, or an error was reported. -/
def ChatConn.isClosed (c : ChatConn) : Bool :=
  (c.clientClosed && c.serverClosed) || c.failed.isSome

/-! ### Subscription server used for the independence claim -/

/-- Modelled from the spec: the service's set of active `statusEvents`
subscriptions over one shared store; each subscription holds its own
event sequence. -/
structure SubServer where
  store : Store
  subs : List (List Status)
deriving DecidableEq, Repr

/-- Open one more subscription for `oid`: the new read view is computed
from the store alone and appended; existing subscriptions are untouched. -/
def SubServer.subscribe (sv : SubServer) (oid : String) : SubServer :=
  match sv.store.statusEvents oid with
  | Except.error _ => sv
  | Except.ok evs => ⟨sv.store, sv.subs ++ [evs]⟩

/-! ### Client driver, transcribed from `gRPC/client-node/index.mjs` -/

/-- One outbound action of a streaming client: `write` a message or signal
end-of-input (`call.end()` in the source). -/
inductive ClientAction (α : Type)
  | write (m : α)
  | done
deriving DecidableEq, Repr

def ClientAction.isDone {α : Type} : ClientAction α → Bool
  | .done => true
  | .write _ => false

def ClientAction.isWrite {α : Type} : ClientAction α → Bool
  | .write _ => true
  | .done => false

/-- Number of end-of-input signals in an action sequence. -/
def endCount {α : Type} (l : List (ClientAction α)) : Nat :=
  (l.filter ClientAction.isDone).length

/-- Holds when no `write` occurs after any end-of-input signal. -/
def noWriteAfterEnd {α : Type} : List (ClientAction α) → Bool
  | [] => true
  | .done :: rest => rest.all (fun a => !a.isWrite) && noWriteAfterEnd rest
  | .write _ :: rest => noWriteAfterEnd rest

/-- The three notes `demoClientStream` sends (`notes` in the source); the
shared timestamp is the observed wall clock. -/
def uploadNotesSent (t : Nat) : List Note :=
  [⟨"note 1", t⟩, ⟨"note 2", t⟩, ⟨"note 3", t⟩]

/-- Action sequence of `demoClientStream`: each note is written in order,
then `call.end()` is issued exactly once. -/
def demoClientStreamActions (t : Nat) : List (ClientAction Note) :=
  (uploadNotesSent t).map ClientAction.write ++ [ClientAction.done]

/-- The three chat messages `demoBidi` sends (`sends` in the source). -/
def chatSends (t : Nat) : List ChatMessage :=
  [⟨"cli", "hello 1", t⟩, ⟨"cli", "hello 2", t⟩, ⟨"cli", "hello 3", t⟩]

/-- The interval loop of `demoBidi`: while the index is in range, write
`sends[i]` and advance; once past the end, clear the interval and issue
`call.end()`. -/
def bidiTickLoop (sends : List ChatMessage) (i : Nat) :
    List (ClientAction ChatMessage) :=
  if h : sends.length ≤ i then [ClientAction.done]
  else
    ClientAction.write (sends.get ⟨i, by omega⟩) :: bidiTickLoop sends (i + 1)
termination_by sends.length - i
decreasing_by omega

/-- Action sequence of `demoBidi`, starting the interval loop at index 0. -/
def demoBidiActions (t : Nat) : List (ClientAction ChatMessage) :=
  bidiTickLoop (chatSends t) 0

/-- Demo stages of the client's main flow, in source order. -/
inductive DemoName
  | unary
  | serverStream
  | clientStream
  | bidi
deriving DecidableEq, Repr

/-- The main IIFE of `index.mjs`: the four demos run strictly in sequence,
each awaited; the first rejection aborts the rest and exits with status 1,
and status 0 is reported only when all four resolved.  The result lists
the demos that were started, with the exit status. -/
def mainFlow (r1 : Except GrpcError String) (r2 : String → Except GrpcError Unit)
    (r3 : Except GrpcError Unit) (r4 : Except GrpcError Unit) :
    List DemoName × Nat :=
  match r1 with
  | .error _ => ([.unary], 1)
  | .ok oid =>
    match r2 oid with
    | .error _ => ([.unary, .serverStream], 1)
    | .ok _ =>
      match r3 with
      | .error _ => ([.unary, .serverStream, .clientStream], 1)
      | .ok _ =>
        match r4 with
        | .error _ => ([.unary, .serverStream, .clientStream, .bidi], 1)
        | .ok _ => ([.unary, .serverStream, .clientStream, .bidi], 0)

/-- Well-formed id bookkeeping of the store: every registered order's id was
generated from an earlier value of the counter, and no two orders share an
id. -/
def Store.wfIds (s : Store) : Prop :=
  (∀ p ∈ s.orders, ∃ k, k < s.nextId ∧ p.2.id = mkId k)
  ∧ (s.orders.map (fun p => p.2.id)).Nodup

/-! ### Injectivity of the id rendering

`mkId` renders the counter with `Nat.repr`; we prove `Nat.repr` injective
from first principles (accumulator and fuel lemmas for `Nat.toDigitsCore`,
then injectivity of the digit recursion). -/

theorem toDigitsCore_acc (b : Nat) :
    ∀ (f n : Nat) (acc : List Char),
      Nat.toDigitsCore b f n acc = Nat.toDigitsCore b f n [] ++ acc := by
  intro f
  induction f with
  | zero => intro n acc; simp [Nat.toDigitsCore]
  | succ f ih =>
    intro n acc
    simp only [Nat.toDigitsCore]
    by_cases h : n / b = 0
    · simp [h]
    · simp only [h, if_false]
      rw [ih (n / b) (Nat.digitChar (n % b) :: acc),
        ih (n / b) [Nat.digitChar (n % b)]]
      simp

theorem toDigitsCore_fuel (b : Nat) (hb : 1 < b) :
    ∀ n f f', n < f → n < f' →
      Nat.toDigitsCore b f n [] = Nat.toDigitsCore b f' n [] := by
  intro n
  induction n using Nat.strong_induction_on with
  | _ n ih =>
    intro f f' hf hf'
    match f, f' with
    | f + 1, f' + 1 =>
      simp only [Nat.toDigitsCore]
      by_cases h : n / b = 0
      · simp [h]
      · simp only [h, if_false]
        have hn : 0 < n := by
          rcases Nat.eq_zero_or_pos n with h0 | h0
          · exact absurd (by simp [h0]) h
          · exact h0
        have hdiv : n / b < n := Nat.div_lt_self hn hb
        rw [toDigitsCore_acc, toDigitsCore_acc b f']
        congr 1
        exact ih (n / b) hdiv f f' (by omega) (by omega)

/-- Reference form of the decimal digit recursion. -/
def reprDigits (n : Nat) : List Char :=
  if _h : n < 10 then [Nat.digitChar n]
  else reprDigits (n / 10) ++ [Nat.digitChar (n % 10)]
termination_by n
decreasing_by exact Nat.div_lt_self (by omega) (by omega)

theorem toDigits_eq_reprDigits : ∀ n, Nat.toDigits 10 n = reprDigits n := by
  intro n
  induction n using Nat.strong_induction_on with
  | _ n ih =>
    rw [Nat.toDigits, reprDigits]
    by_cases h : n < 10
    · have hd : n / 10 = 0 := Nat.div_eq_of_lt h
      have hm : n % 10 = n := Nat.mod_eq_of_lt h
      simp [Nat.toDigitsCore, hd, hm, h]
    · have hd : n / 10 ≠ 0 := by
        intro h0
        have h1 : n / 10 < 1 := by omega
        have h2 : n < 1 * 10 := (Nat.div_lt_iff_lt_mul (by omega)).mp h1
        exact h (by omega)
      have hdiv : n / 10 < n := Nat.div_lt_self (by omega) (by omega)
      simp only [h, dif_neg, not_false_eq_true]
      simp only [Nat.toDigitsCore, hd, if_false]
      rw [toDigitsCore_acc]
      rw [toDigitsCore_fuel 10 (by omega) (n / 10) n (n / 10 + 1) hdiv
        (Nat.lt_succ_self _)]
      rw [← Nat.toDigits, ih (n / 10) hdiv]

theorem digitChar_inj_lt (a b : Nat) (ha : a < 10) (hb : b < 10)
    (h : Nat.digitChar a = Nat.digitChar b) : a = b := by
  have key : ∀ x y : Fin 10, Nat.digitChar x.val = Nat.digitChar y.val → x = y := by
    decide
  have := key ⟨a, ha⟩ ⟨b, hb⟩ h
  exact congrArg Fin.val this

theorem reprDigits_lt (n : Nat) (h : n < 10) :
    reprDigits n = [Nat.digitChar n] := by
  rw [reprDigits]
  simp [h]

theorem reprDigits_ge (n : Nat) (h : ¬ n < 10) :
    reprDigits n = reprDigits (n / 10) ++ [Nat.digitChar (n % 10)] := by
  conv_lhs => rw [reprDigits]
  simp [h]

theorem reprDigits_ne_nil (n : Nat) : reprDigits n ≠ [] := by
  by_cases h : n < 10
  · rw [reprDigits_lt n h]; simp
  · rw [reprDigits_ge n h]; simp

theorem reprDigits_inj : ∀ m n, reprDigits m = reprDigits n → m = n := by
  intro m
  induction m using Nat.strong_induction_on with
  | _ m ih =>
    intro n h
    by_cases hm : m < 10 <;> by_cases hn : n < 10
    · rw [reprDigits_lt m hm, reprDigits_lt n hn] at h
      exact digitChar_inj_lt m n hm hn (List.singleton_inj.mp h)
    · rw [reprDigits_lt m hm, reprDigits_ge n hn] at h
      have hlen := congrArg List.length h
      simp only [List.length_singleton, List.length_append,
        List.length_cons, List.length_nil] at hlen
      have hz : (reprDigits (n / 10)).length = 0 := by omega
      exact absurd (List.eq_nil_of_length_eq_zero hz) (reprDigits_ne_nil _)
    · rw [reprDigits_ge m hm, reprDigits_lt n hn] at h
      have hlen := congrArg List.length h
      simp only [List.length_singleton, List.length_append,
        List.length_cons, List.length_nil] at hlen
      have hz : (reprDigits (m / 10)).length = 0 := by omega
      exact absurd (List.eq_nil_of_length_eq_zero hz) (reprDigits_ne_nil _)
    · rw [reprDigits_ge m hm, reprDigits_ge n hn] at h
      have hrev := congrArg List.reverse h
      simp only [List.reverse_append, List.reverse_cons, List.reverse_nil,
        List.nil_append, List.singleton_append, List.cons.injEq] at hrev
      obtain ⟨hlast, hinit⟩ := hrev
      have hmod : m % 10 = n % 10 :=
        digitChar_inj_lt _ _ (Nat.mod_lt _ (by omega)) (Nat.mod_lt _ (by omega))
          hlast
      have hdivlt : m / 10 < m := Nat.div_lt_self (by omega) (by omega)
      have hdiv : m / 10 = n / 10 :=
        ih (m / 10) hdivlt (n / 10) (List.reverse_injective hinit)
      omega

theorem natRepr_inj {m n : Nat} (h : Nat.repr m = Nat.repr n) : m = n := by
  have hdata : Nat.toDigits 10 m = Nat.toDigits 10 n := by
    have := congrArg String.data h
    simpa [Nat.repr, List.asString] using this
  rw [toDigits_eq_reprDigits, toDigits_eq_reprDigits] at hdata
  exact reprDigits_inj m n hdata

theorem mkId_inj {m n : Nat} (h : mkId m = mkId n) : m = n := by
  have hdata := congrArg String.data h
  simp only [mkId, String.data_append] at hdata
  exact natRepr_inj (by
    apply String.ext
    exact List.append_cancel_left hdata)

theorem mkId_ne_empty (n : Nat) : mkId n ≠ "" := by
  intro h
  have hlen := congrArg String.length h
  rw [mkId, String.length_append] at hlen
  have h6 : ("order-" : String).length = 6 := rfl
  have h0 : ("" : String).length = 0 := rfl
  omega

/-! ### Status progression facts -/

theorem statusesFrom_getLast (st : Status) :
    (statusesFrom st).getLast? = some Status.DELIVERED := by
  cases st <;> rfl

theorem statusesFrom_head (st : Status) :
    (statusesFrom st).head? = some st := by
  cases st <;> rfl

theorem statusesFrom_delivered_last (st : Status) :
    ∀ i : Fin (statusesFrom st).length,
      (statusesFrom st).get i = Status.DELIVERED →
      (i : Nat) + 1 = (statusesFrom st).length := by
  cases st <;> decide

theorem statusesFrom_created :
    statusesFrom Status.CREATED =
      [Status.CREATED, Status.PROCESSING, Status.SHIPPED, Status.DELIVERED] :=
  rfl

theorem statusesFrom_no_replay (st : Status) (h : st ≠ Status.CREATED) :
    Status.CREATED ∉ statusesFrom st := by
  cases st
  · exact absurd rfl h
  · decide
  · decide
  · decide

theorem map_status_enum (oid : String) (t0 : Nat) (l : List Status) :
    ((l.enum.map fun p => StatusEvent.mk oid p.2 (t0 + p.1)).map
      StatusEvent.status) = l := by
  rw [List.map_map]
  have hcomp :
      (StatusEvent.status ∘ fun p : Nat × Status =>
        StatusEvent.mk oid p.2 (t0 + p.1)) = Prod.snd := by
    funext p
    rfl
  rw [hcomp, List.enum_map_snd]

/-! ### Upload machine facts -/

theorem runUpload_append (ms₁ ms₂ : List UpMsg) :
    ∀ a, runUpload a (ms₁ ++ ms₂) =
      ((runUpload (runUpload a ms₁).1 ms₂).1,
        (runUpload a ms₁).2 ++ (runUpload (runUpload a ms₁).1 ms₂).2) := by
  induction ms₁ with
  | nil => intro a; simp [runUpload]
  | cons m ms ih =>
    intro a
    simp [runUpload, ih, List.append_assoc]

theorem runUpload_notes (notes : List Note) :
    ∀ a, runUpload a (notes.map UpMsg.note) =
      (notes.foldl UploadAcc.addNote a, []) := by
  induction notes with
  | nil => intro a; simp [runUpload]
  | cons n ns ih =>
    intro a
    simp [runUpload, uploadStep, ih, List.foldl_cons]

theorem foldl_addNote_count (notes : List Note) :
    ∀ a, (notes.foldl UploadAcc.addNote a).count = a.count + notes.length := by
  induction notes with
  | nil => intro a; simp
  | cons n ns ih =>
    intro a
    simp [List.foldl_cons, ih, UploadAcc.addNote]
    omega

/-! ### Subscription machine facts -/

theorem runSub_append (is₁ is₂ : List SubIn) :
    ∀ s, runSub s (is₁ ++ is₂) =
      ((runSub (runSub s is₁).1 is₂).1,
        (runSub s is₁).2 ++ (runSub (runSub s is₁).1 is₂).2) := by
  induction is₁ with
  | nil => intro s; simp [runSub]
  | cons i is ih =>
    intro s
    simp [runSub, ih, List.append_assoc]

theorem runSub_cancelled (ins : List SubIn) :
    runSub ⟨[], true⟩ ins = (⟨[], true⟩, []) := by
  induction ins with
  | nil => rfl
  | cons i is ih =>
    cases i <;> simp [runSub, subStep, ih]

/-! ### Chat connection facts -/

theorem foldl_chatStep_clientMsgs (msgs : List ChatMessage) :
    ∀ c, (msgs.map ChatEv.clientMsg).foldl chatStep c = c := by
  induction msgs with
  | nil => intro c; rfl
  | cons m ms ih =>
    intro c
    simp [List.foldl_cons, chatStep, ih]

/-! ### Client driver facts -/

theorem bidiTickLoop_eq_spec (sends : List ChatMessage) :
    ∀ k i, sends.length - i ≤ k →
      bidiTickLoop sends i =
        (sends.drop i).map ClientAction.write ++ [ClientAction.done] := by
  intro k
  induction k with
  | zero =>
    intro i h
    have hle : sends.length ≤ i := by omega
    rw [bidiTickLoop, dif_pos hle, List.drop_eq_nil_of_le hle]
    simp
  | succ k ih =>
    intro i h
    by_cases hle : sends.length ≤ i
    · rw [bidiTickLoop, dif_pos hle, List.drop_eq_nil_of_le hle]
      simp
    · rw [bidiTickLoop, dif_neg hle, ih (i + 1) (by omega)]
      have hlt : i < sends.length := by omega
      rw [List.drop_eq_getElem_cons hlt, List.map_cons, List.cons_append]
      simp only [List.get_eq_getElem]

theorem endCount_writes_then_done {α : Type} (l : List α) :
    endCount (l.map ClientAction.write ++ [ClientAction.done]) = 1 := by
  induction l with
  | nil => rfl
  | cons x xs ih =>
    simp only [List.map_cons, List.cons_append, endCount, List.filter,
      ClientAction.isDone]
    exact ih

theorem noWriteAfterEnd_writes_then_done {α : Type} (l : List α) :
    noWriteAfterEnd (l.map ClientAction.write ++ [ClientAction.done]) = true := by
  induction l with
  | nil => rfl
  | cons x xs ih =>
    simpa [noWriteAfterEnd] using ih

/-! ### Store id bookkeeping facts -/

theorem Store.empty_wfIds : Store.empty.wfIds := by
  constructor
  · intro p hp
    simp [Store.empty] at hp
  · simp [Store.empty]

theorem Store.create_wfIds (s : Store) (cid : String) (items : List String)
    (now : Nat) (h : s.wfIds) : (s.create cid items now).2.wfIds := by
  obtain ⟨hbound, hnodup⟩ := h
  constructor
  · intro p hp
    simp only [Store.create, List.mem_cons] at hp ⊢
    rcases hp with hp | hp
    · exact ⟨s.nextId, by omega, by rw [hp]⟩
    · obtain ⟨k, hk, hid⟩ := hbound p hp
      exact ⟨k, by omega, hid⟩
  · simp only [Store.create, List.map_cons]
    refine List.Nodup.cons ?_ hnodup
    intro hmem
    obtain ⟨p, hp, heq⟩ := List.mem_map.mp hmem
    obtain ⟨k, hk, hid⟩ := hbound p hp
    rw [hid] at heq
    have := mkId_inj heq
    omega

theorem createRpc_wfIds (s : Store) (cid : String) (items : List String)
    (now : Nat) (h : s.wfIds) : ((createRpc s cid items now).2).wfIds := by
  by_cases he : items.isEmpty
  · simpa [createRpc, he] using h
  · simpa [createRpc, he] using Store.create_wfIds s cid items now h

/-! ### Claim theorems -/

/-- C1: For every finite sequence of notes terminated by the explicit
end-of-input signal, `UploadNotes` sends no response before end-of-input,
sends exactly one `NotesSummary` response after it, and that summary's
`count` equals the number of notes sent — including `count = 0` for zero
notes, which is a summary, not an error. -/
theorem uploadNotes_count_correct (notes : List Note) :
    (runUpload UploadAcc.start (notes.map UpMsg.note)).2 = []
    ∧ (runUpload UploadAcc.start (notes.map UpMsg.note ++ [UpMsg.eoi])).2.length
        = 1
    ∧ ∀ summ ∈ (runUpload UploadAcc.start
        (notes.map UpMsg.note ++ [UpMsg.eoi])).2,
        summ.count = notes.length := by
  have hnotes := runUpload_notes notes UploadAcc.start
  have happ := runUpload_append (notes.map UpMsg.note) [UpMsg.eoi]
    UploadAcc.start
  have heoi : ∀ a, runUpload a [UpMsg.eoi] = (a, [a.finalize]) := by
    intro a
    rfl
  refine ⟨by rw [hnotes], ?_, ?_⟩
  · rw [happ, hnotes]
    simp [heoi]
  · intro summ hmem
    rw [happ, hnotes] at hmem
    simp [heoi, UploadAcc.finalize] at hmem
    have hc : (List.foldl UploadAcc.addNote UploadAcc.start notes).count
        = notes.length := by
      rw [foldl_addNote_count notes UploadAcc.start]
      simp [UploadAcc.start]
    rw [hmem]
    exact hc

/-- C2: For every order in the store, `StreamStatus` answers with an event
sequence whose statuses follow the progression from the order's current
status, eventually contain `DELIVERED`, emit nothing after `DELIVERED`
(a `DELIVERED` event is always the last one), and the stream then ends
cleanly with an `ok` result; for a freshly created order (status
`CREATED`) the sequence is CREATED, PROCESSING, SHIPPED, DELIVERED. -/
theorem streamStatus_reaches_delivered (s : Store) (oid : String) (o : Order)
    (t0 : Nat) (h : s.get oid = some o) :
    ∃ evs : List StatusEvent,
      streamStatus s oid t0 = Except.ok evs
      ∧ evs.map StatusEvent.status = statusesFrom o.status
      ∧ (evs.map StatusEvent.status).getLast? = some Status.DELIVERED
      ∧ (∀ i : Fin evs.length,
          (evs.get i).status = Status.DELIVERED → (i : Nat) + 1 = evs.length)
      ∧ (o.status = Status.CREATED →
          evs.map StatusEvent.status =
            [Status.CREATED, Status.PROCESSING, Status.SHIPPED,
              Status.DELIVERED]) := by
  refine ⟨(statusesFrom o.status).enum.map fun p => ⟨oid, p.2, t0 + p.1⟩,
    ?_, ?_, ?_, ?_, ?_⟩
  · simp [streamStatus, Store.statusEvents, h, Except.map]
  · exact map_status_enum oid t0 (statusesFrom o.status)
  · rw [map_status_enum oid t0 (statusesFrom o.status)]
    exact statusesFrom_getLast o.status
  · intro i hdel
    have hlen :
        ((statusesFrom o.status).enum.map fun p =>
          StatusEvent.mk oid p.2 (t0 + p.1)).length
          = (statusesFrom o.status).length := by
      simp
    have hi : i.val < (statusesFrom o.status).length := hlen ▸ i.isLt
    have hidx :
        (statusesFrom o.status).get ⟨i.val, hi⟩ = Status.DELIVERED := by
      simp only [List.get_eq_getElem, List.getElem_map,
        List.getElem_enum] at hdel ⊢
      exact hdel
    have hlast := statusesFrom_delivered_last o.status ⟨i.val, hi⟩ hidx
    simp only at hlast
    omega
  · intro hc
    rw [map_status_enum oid t0 (statusesFrom o.status), hc]
    exact statusesFrom_created

/-- Witness for C2 at a concrete store: the order created by
`Create(customer_id="C001", item_ids=["A","B"])` on the empty store. -/
theorem streamStatus_reaches_delivered_witness :
    ∃ evs : List StatusEvent,
      streamStatus (Store.empty.create "C001" ["A", "B"] 0).2 (mkId 0) 7
        = Except.ok evs
      ∧ evs.map StatusEvent.status = statusesFrom Status.CREATED
      ∧ (evs.map StatusEvent.status).getLast? = some Status.DELIVERED
      ∧ (∀ i : Fin evs.length,
          (evs.get i).status = Status.DELIVERED → (i : Nat) + 1 = evs.length)
      ∧ (Status.CREATED = Status.CREATED →
          evs.map StatusEvent.status =
            [Status.CREATED, Status.PROCESSING, Status.SHIPPED,
              Status.DELIVERED]) :=
  streamStatus_reaches_delivered (Store.empty.create "C001" ["A", "B"] 0).2
    (mkId 0) ⟨mkId 0, "C001", ["A", "B"], Status.CREATED, 0⟩ 7 (by decide)

/-- C3: `StreamStatus` on an id not present in the store terminates
immediately with a `NotFound` error and emits zero events (the result is
the error alone, with no event list); the call is a total function, never
a hang or a silent no-op. -/
theorem streamStatus_unknown_notFound (s : Store) (oid : String) (t0 : Nat)
    (h : s.get oid = none) :
    streamStatus s oid t0 = Except.error GrpcError.NotFound := by
  simp [streamStatus, Store.statusEvents, h, Except.map]

/-- Witness for C3: an unknown id on the empty store. -/
theorem streamStatus_unknown_notFound_witness :
    streamStatus Store.empty "missing" 0 = Except.error GrpcError.NotFound :=
  streamStatus_unknown_notFound Store.empty "missing" 0 rfl

/-- C4: `Create` fails with `InvalidArgument` exactly when `item_ids` is
empty, leaving the store unchanged in that case; on every non-empty
`item_ids` it succeeds with a single response carrying a non-empty
`order_id`. -/
theorem create_invalidArgument_iff (s : Store) (cid : String)
    (items : List String) (now : Nat) :
    ((createRpc s cid items now).1 = Except.error GrpcError.InvalidArgument
      ↔ items = [])
    ∧ (items = [] → (createRpc s cid items now).2 = s)
    ∧ (items ≠ [] →
        ∃ oid, (createRpc s cid items now).1 = Except.ok oid ∧ oid ≠ "") := by
  by_cases h : items = []
  · subst h
    simp [createRpc]
  · have hne : items.isEmpty = false := by
      simpa [List.isEmpty_iff] using h
    refine ⟨?_, ?_, ?_⟩
    · simp [createRpc, hne, h]
    · intro hc
      exact absurd hc h
    · intro _
      exact ⟨mkId s.nextId, by simp [createRpc, hne, Store.create],
        mkId_ne_empty s.nextId⟩

/-- Witness for C4: empty `item_ids` leaves the empty store unchanged;
`["A","B"]` succeeds with a non-empty id. -/
theorem create_invalidArgument_iff_witness :
    (createRpc Store.empty "C001" [] 0).2 = Store.empty
    ∧ ∃ oid, (createRpc Store.empty "C001" ["A", "B"] 0).1 = Except.ok oid
        ∧ oid ≠ "" :=
  ⟨(create_invalidArgument_iff Store.empty "C001" [] 0).2.1 rfl,
    (create_invalidArgument_iff Store.empty "C001" ["A", "B"] 0).2.2
      (by simp)⟩

/-- C5: Order-id generation is serialized through the store's atomic
counter: any two consecutive successful `Create` calls return distinct
`order_id`s, and every `Create` call preserves the invariant that the
store's id-to-Order map never holds two orders sharing an id. -/
theorem create_orderIds_unique (s : Store) (hwf : s.wfIds) :
    (∀ c1 i1 t1 c2 i2 t2 oid1 s1 oid2 s2,
        createRpc s c1 i1 t1 = (Except.ok oid1, s1) →
        createRpc s1 c2 i2 t2 = (Except.ok oid2, s2) →
        oid1 ≠ oid2)
    ∧ ∀ c i t, ((createRpc s c i t).2).wfIds := by
  constructor
  · intro c1 i1 t1 c2 i2 t2 oid1 s1 oid2 s2 h1 h2
    by_cases he1 : i1.isEmpty
    · simp [createRpc, he1] at h1
    · by_cases he2 : i2.isEmpty
      · simp [createRpc, he2] at h2
      · simp only [createRpc, he1, Bool.false_eq_true, if_false,
          Store.create, Prod.mk.injEq, Except.ok.injEq] at h1
        obtain ⟨hoid1, hs1⟩ := h1
        simp only [createRpc, he2, Bool.false_eq_true, if_false,
          Store.create, Prod.mk.injEq, Except.ok.injEq] at h2
        obtain ⟨hoid2, _⟩ := h2
        rw [← hoid1, ← hoid2, ← hs1]
        intro heq
        have := mkId_inj heq
        simp at this
  · intro c i t
    exact createRpc_wfIds s c i t hwf

/-- Witness for C5: two creates on the empty store return the ids of
counter values 0 and 1, which differ. -/
theorem create_orderIds_unique_witness : mkId 0 ≠ mkId 1 :=
  (create_orderIds_unique Store.empty Store.empty_wfIds).1
    "C001" ["A", "B"] 0 "C002" ["C"] 1
    (mkId 0)
    ⟨[(mkId 0, ⟨mkId 0, "C001", ["A", "B"], Status.CREATED, 0⟩)], 1⟩
    (mkId 1)
    ⟨[(mkId 1, ⟨mkId 1, "C002", ["C"], Status.CREATED, 1⟩),
      (mkId 0, ⟨mkId 0, "C001", ["A", "B"], Status.CREATED, 0⟩)], 2⟩
    rfl rfl

/-- C6: Caller-initiated cancellation of a `StreamStatus` subscription is
observed immediately: whatever the schedule after the cancellation signal,
no further event is emitted (the total output equals the output before
cancellation), and the subscription is released (no pending events,
cancelled flag set). -/
theorem streamStatus_cancel_halts (evs : List Status)
    (pre post : List SubIn) :
    (runSub ⟨evs, false⟩ (pre ++ SubIn.cancel :: post)).2
      = (runSub ⟨evs, false⟩ pre).2
    ∧ (runSub ⟨evs, false⟩ (pre ++ SubIn.cancel :: post)).1
      = ⟨[], true⟩ := by
  have hsplit := runSub_append pre (SubIn.cancel :: post) ⟨evs, false⟩
  have hcancel : ∀ s : Sub, runSub s (SubIn.cancel :: post)
      = (⟨[], true⟩, []) := by
    intro s
    simp [runSub, subStep, runSub_cancelled post]
  rw [hsplit, hcancel]
  simp

/-- C7: Half-closing one direction of a `Chat` call leaves the other
direction untouched; with no error the stream is closed exactly when both
directions have closed; an error from either side closes the stream with
that error recorded for both ends; and in the scenario where the caller
sends its messages then half-closes, the call is still open until the peer
closes too, after which it is closed without error. -/
theorem chat_half_close_semantics (c : ChatConn) (e : GrpcError)
    (msgs : List ChatMessage) :
    ((chatStep c ChatEv.clientClose).serverClosed = c.serverClosed
      ∧ (chatStep c ChatEv.serverClose).clientClosed = c.clientClosed)
    ∧ (c.failed = none →
        (ChatConn.isClosed c = true
          ↔ c.clientClosed = true ∧ c.serverClosed = true))
    ∧ (ChatConn.isClosed (chatStep c (ChatEv.fail e)) = true
        ∧ (chatStep c (ChatEv.fail e)).failed = some e)
    ∧ (ChatConn.isClosed
        (runChat (msgs.map ChatEv.clientMsg ++ [ChatEv.clientClose])) = false
      ∧ (runChat (msgs.map ChatEv.clientMsg
          ++ [ChatEv.clientClose, ChatEv.serverClose])).failed = none
      ∧ ChatConn.isClosed (runChat (msgs.map ChatEv.clientMsg
          ++ [ChatEv.clientClose, ChatEv.serverClose])) = true) := by
  refine ⟨⟨?_, ?_⟩, ?_, ⟨?_, ?_⟩, ?_, ?_, ?_⟩
  · simp [chatStep]
  · simp [chatStep]
  · intro hf
    simp [ChatConn.isClosed, hf]
  · simp [chatStep, ChatConn.isClosed]
  · simp [chatStep]
  · rw [runChat, List.foldl_append, foldl_chatStep_clientMsgs]
    rfl
  · rw [runChat, List.foldl_append, foldl_chatStep_clientMsgs]
    rfl
  · rw [runChat, List.foldl_append, foldl_chatStep_clientMsgs]
    rfl

/-- Witness for C7 at the fresh connection, an `Internal` error and the
three scenario messages of the source client. -/
theorem chat_half_close_semantics_witness :
    ChatConn.isClosed ChatConn.start = true
      ↔ ChatConn.start.clientClosed = true
        ∧ ChatConn.start.serverClosed = true :=
  (chat_half_close_semantics ChatConn.start GrpcError.Internal
    (chatSends 0)).2.1 rfl

/-- C8: For every order in the store, each `statusEvents` call yields an
independent sequence positioned at the order's current status (its head is
the current status, and for an order past `CREATED` no `CREATED` event is
replayed), and opening a new subscription neither disturbs existing
subscriptions nor the store — each subscription is an independent read
view computed from the store alone. -/
theorem statusEvents_independent_views (s : Store) (oid : String) (o : Order)
    (h : s.get oid = some o) :
    s.statusEvents oid = Except.ok (statusesFrom o.status)
    ∧ (statusesFrom o.status).head? = some o.status
    ∧ (o.status ≠ Status.CREATED →
        Status.CREATED ∉ statusesFrom o.status)
    ∧ ∀ sv : SubServer, sv.store = s →
        (sv.subscribe oid).subs = sv.subs ++ [statusesFrom o.status]
        ∧ (sv.subscribe oid).store = s := by
  have hok : s.statusEvents oid = Except.ok (statusesFrom o.status) := by
    simp [Store.statusEvents, h]
  refine ⟨hok, statusesFrom_head o.status, statusesFrom_no_replay o.status,
    ?_⟩
  intro sv hsv
  constructor
  · simp [SubServer.subscribe, hsv, hok]
  · simp [SubServer.subscribe, hsv, hok]

/-- Witness for C8 at a store holding one order already in `PROCESSING`,
with one unrelated subscription already active. -/
theorem statusEvents_independent_views_witness :
    (Store.statusEvents
        ⟨[("o1", ⟨"o1", "C9", ["A"], Status.PROCESSING, 0⟩)], 1⟩ "o1"
      = Except.ok (statusesFrom Status.PROCESSING))
    ∧ (SubServer.subscribe
        ⟨⟨[("o1", ⟨"o1", "C9", ["A"], Status.PROCESSING, 0⟩)], 1⟩,
          [[Status.SHIPPED, Status.DELIVERED]]⟩ "o1").subs
      = [[Status.SHIPPED, Status.DELIVERED]]
        ++ [statusesFrom Status.PROCESSING] :=
  ⟨(statusEvents_independent_views
      ⟨[("o1", ⟨"o1", "C9", ["A"], Status.PROCESSING, 0⟩)], 1⟩ "o1"
      ⟨"o1", "C9", ["A"], Status.PROCESSING, 0⟩ (by decide)).1,
    ((statusEvents_independent_views
      ⟨[("o1", ⟨"o1", "C9", ["A"], Status.PROCESSING, 0⟩)], 1⟩ "o1"
      ⟨"o1", "C9", ["A"], Status.PROCESSING, 0⟩ (by decide)).2.2.2
      ⟨⟨[("o1", ⟨"o1", "C9", ["A"], Status.PROCESSING, 0⟩)], 1⟩,
        [[Status.SHIPPED, Status.DELIVERED]]⟩ rfl).1⟩

/-- C9: In both streaming demos the client signals end-of-input exactly
once and never writes after it: the `UploadNotes` driver writes its three
notes then ends, and the `Chat` interval loop writes `sends[i]` while in
range then ends — for any observed wall-clock timestamp. -/
theorem client_signals_end_once (t : Nat) :
    endCount (demoClientStreamActions t) = 1
    ∧ noWriteAfterEnd (demoClientStreamActions t) = true
    ∧ endCount (demoBidiActions t) = 1
    ∧ noWriteAfterEnd (demoBidiActions t) = true := by
  have hbidi : demoBidiActions t
      = (chatSends t).map ClientAction.write ++ [ClientAction.done] := by
    rw [demoBidiActions,
      bidiTickLoop_eq_spec (chatSends t) 3 0 (by simp [chatSends])]
    rfl
  refine ⟨?_, ?_, ?_, ?_⟩
  · exact endCount_writes_then_done (uploadNotesSent t)
  · exact noWriteAfterEnd_writes_then_done (uploadNotesSent t)
  · rw [hbidi]
    exact endCount_writes_then_done (chatSends t)
  · rw [hbidi]
    exact noWriteAfterEnd_writes_then_done (chatSends t)

/-- C10: The client's main flow runs the four demos strictly in the order
unary, server-streaming, client-streaming, bidirectional; the first demo
that rejects stops the flow with exit status 1 and the later demos never
start; exit status 0 is reported exactly when all four completed without
error, so no stream error is swallowed. -/
theorem main_flow_sequential_fail_fast (r1 : Except GrpcError String)
    (r2 : String → Except GrpcError Unit) (r3 r4 : Except GrpcError Unit) :
    (∀ e, r1 = Except.error e →
        mainFlow r1 r2 r3 r4 = ([DemoName.unary], 1))
    ∧ (∀ oid e, r1 = Except.ok oid → r2 oid = Except.error e →
        mainFlow r1 r2 r3 r4 = ([DemoName.unary, DemoName.serverStream], 1))
    ∧ (∀ oid e, r1 = Except.ok oid → r2 oid = Except.ok () →
        r3 = Except.error e →
        mainFlow r1 r2 r3 r4
          = ([DemoName.unary, DemoName.serverStream,
              DemoName.clientStream], 1))
    ∧ (∀ oid e, r1 = Except.ok oid → r2 oid = Except.ok () →
        r3 = Except.ok () → r4 = Except.error e →
        mainFlow r1 r2 r3 r4
          = ([DemoName.unary, DemoName.serverStream, DemoName.clientStream,
              DemoName.bidi], 1))
    ∧ (∀ oid, r1 = Except.ok oid → r2 oid = Except.ok () →
        r3 = Except.ok () → r4 = Except.ok () →
        mainFlow r1 r2 r3 r4
          = ([DemoName.unary, DemoName.serverStream, DemoName.clientStream,
              DemoName.bidi], 0))
    ∧ ((mainFlow r1 r2 r3 r4).2 = 0
        ↔ ∃ oid, r1 = Except.ok oid ∧ r2 oid = Except.ok ()
            ∧ r3 = Except.ok () ∧ r4 = Except.ok ()) := by
  refine ⟨?_, ?_, ?_, ?_, ?_, ?_⟩
  · intro e h1
    simp [mainFlow, h1]
  · intro oid e h1 h2
    simp [mainFlow, h1, h2]
  · intro oid e h1 h2 h3
    simp [mainFlow, h1, h2, h3]
  · intro oid e h1 h2 h3 h4
    simp [mainFlow, h1, h2, h3, h4]
  · intro oid h1 h2 h3 h4
    simp [mainFlow, h1, h2, h3, h4]
  · cases r1 with
    | error e => simp [mainFlow]
    | ok oid =>
      cases h2 : r2 oid with
      | error e => simp [mainFlow, h2]
      | ok u =>
        cases r3 with
        | error e => simp [mainFlow, h2]
        | ok u3 =>
          cases r4 with
          | error e => simp [mainFlow, h2]
          | ok u4 => simp [mainFlow, h2]

/-- Witness for C10: a failing unary demo stops the flow at once with exit
status 1, and an all-ok run reports all four demos with exit status 0. -/
theorem main_flow_sequential_fail_fast_witness :
    mainFlow (Except.error GrpcError.Internal) (fun _ => Except.ok ())
        (Except.ok ()) (Except.ok ()) = ([DemoName.unary], 1)
    ∧ mainFlow (Except.ok "order-0") (fun _ => Except.ok ())
        (Except.ok ()) (Except.ok ())
      = ([DemoName.unary, DemoName.serverStream, DemoName.clientStream,
          DemoName.bidi], 0) :=
  ⟨(main_flow_sequential_fail_fast (Except.error GrpcError.Internal)
      (fun _ => Except.ok ()) (Except.ok ()) (Except.ok ())).1
      GrpcError.Internal rfl,
    (main_flow_sequential_fail_fast (Except.ok "order-0")
      (fun _ => Except.ok ()) (Except.ok ()) (Except.ok ())).2.2.2.2.1
      "order-0" rfl rfl rfl rfl⟩

end OrderRpc
